import Mathlib

/-!
Verification of the concurrent resource-lifecycle benchmark engine of the
kubevirt-benchmark repository: shallow embeddings of the retry loop, state
poller, sequential batch waiter, migration/clone duration trackers, result
aggregators and driver exit codes, with theorems about the properties the
specification states for them.

Conventions of the embedding:
- machine time is idealized: polling loops advance a discrete clock by the
  sleep amount of each iteration, and everything inside one iteration happens
  at the same instant;
- external observations (VM status, node placement, migration timestamps,
  DataVolume phase) are oracles indexed by that clock;
- loops whose iteration count is bounded by their timeout are written with a
  fuel argument large enough that it is never exhausted on the stated inputs;
- delays and durations are exact rationals, error messages are strings and
  matching is the same substring matching the code performs.
-/

/-- Python `needle in haystack` substring membership on strings. -/
def strContains (haystack needle : String) : Bool :=
  (List.range (haystack.length + 1)).any (fun i => needle.data.isPrefixOf (haystack.data.drop i))

/-- ASCII lowering of one character, as Python `str.lower` acts on the
ASCII error messages involved here. -/
def pyLowerChar (c : Char) : Char :=
  if 65 ≤ c.toNat ∧ c.toNat ≤ 90 then Char.ofNat (c.toNat + 32) else c

/-- Python `str.lower` on the strings involved here (all ASCII). -/
def pyLower (s : String) : String := ⟨s.data.map pyLowerChar⟩

/-- Python `round(q, 2)`: rounding to two decimal places. (Python rounds
half-to-even while `round` here rounds half-up; the two agree everywhere
except at exact ties of the third decimal, which none of the stated
properties touch.) -/
def pyRound2 (q : ℚ) : ℚ := (round (q * 100) : ℤ) / 100

namespace Capacity

/-- `retryable_errors` of `create_vm_with_data_volumes`
(capacity-benchmark/measure-capacity.py lines 226-238). -/
def retryable_errors : List String :=
  ["context deadline exceeded", "connection refused", "connection reset", "timeout",
   "Internal error occurred", "webhook", "etcdserver: request timed out",
   "the object has been modified", "Operation cannot be fulfilled",
   "TLS handshake timeout", "i/o timeout"]

/-- `any(err.lower() in error_msg.lower() for err in retryable_errors)`
(measure-capacity.py line 308). -/
def is_retryable (error_msg : String) : Bool :=
  retryable_errors.any (fun err => strContains (pyLower error_msg) (pyLower err))

end Capacity

namespace Migration

/-- `retryable_errors` of `create_vms_on_node`
(migration/measure-vm-migration-time.py lines 334-342). -/
def retryable_errors : List String :=
  ["context deadline exceeded", "webhook", "Internal error", "InternalError",
   "connection refused", "timeout", "temporarily unavailable"]

/-- `any(err in error_msg for err in retryable_errors)` — case sensitive,
unlike the capacity driver's check (measure-vm-migration-time.py line 344). -/
def is_retryable (error_msg : String) : Bool :=
  retryable_errors.any (fun err => strContains error_msg err)

end Migration

/-- What one `kubectl create` attempt produced: a zero exit code, a nonzero
exit code with the captured stderr, or a raised exception. -/
inductive AttemptResult
  | success
  | cmdError (stderr : String)
  | raised (msg : String)
deriving DecidableEq

/-- Result of the whole retrying create call: the returned boolean, how many
attempts ran, and the successive backoff delays slept (in seconds). -/
structure RetryTrace where
  ok : Bool
  attempts : ℕ
  delays : List ℚ
deriving DecidableEq

/-- The retry loop shared by `create_vm_with_data_volumes`
(measure-capacity.py lines 288-335) and the per-namespace loop of
`create_vms_on_node` (measure-vm-migration-time.py lines 300-368),
parameterized by the driver's retryable-error check.  `op attempt` is what
the `kubectl create` of that (1-indexed) attempt produced.  On a nonzero
exit code whose stderr matches a retryable pattern with attempts remaining,
and on any raised exception with attempts remaining, the loop sleeps
`initial_delay * 2 ^ (attempt - 1)` and retries; otherwise it stops.  The
two sources differ only in how the final failure leaves the loop
(`return False` versus falling out of the `for`), which yields the same
trace. -/
def retryAttemptLoop (retryable : String → Bool) (op : ℕ → AttemptResult)
    (max_retries : ℕ) (initial_delay : ℚ) : ℕ → ℕ → RetryTrace
  | 0, _ => ⟨false, 0, []⟩
  | fuel + 1, attempt =>
    match op attempt with
    | .success => ⟨true, 1, []⟩
    | .cmdError stderr =>
      if retryable stderr = true ∧ attempt < max_retries then
        let rest := retryAttemptLoop retryable op max_retries initial_delay fuel (attempt + 1)
        ⟨rest.ok, rest.attempts + 1, initial_delay * 2 ^ (attempt - 1) :: rest.delays⟩
      else ⟨false, 1, []⟩
    | .raised _ =>
      if attempt < max_retries then
        let rest := retryAttemptLoop retryable op max_retries initial_delay fuel (attempt + 1)
        ⟨rest.ok, rest.attempts + 1, initial_delay * 2 ^ (attempt - 1) :: rest.delays⟩
      else ⟨false, 1, []⟩

namespace Capacity

/-- The retry loop of `create_vm_with_data_volumes` (measure-capacity.py
lines 288-335): `for attempt in range(1, max_retries + 1)` with the
capacity driver's retryable-error check. -/
def create_vm_with_data_volumes (op : ℕ → AttemptResult) (max_retries : ℕ)
    (initial_delay : ℚ) : RetryTrace :=
  retryAttemptLoop is_retryable op max_retries initial_delay max_retries 1

end Capacity

namespace Migration

/-- The per-namespace retry loop of `create_vms_on_node`
(measure-vm-migration-time.py lines 300-368), with the migration driver's
case-sensitive retryable-error check. -/
def create_vm_attempts (op : ℕ → AttemptResult) (max_retries : ℕ)
    (initial_delay : ℚ) : RetryTrace :=
  retryAttemptLoop is_retryable op max_retries initial_delay max_retries 1

end Migration

namespace Capacity

/-- VM statuses treated as errors by `wait_for_vm_running`
(measure-capacity.py line 384). -/
def error_states : List String := ["CrashLoopBackOff", "ErrImagePull", "Error"]

/-- Result of one poll of `wait_for_vm_running`: the returned pair plus the
elapsed time (seconds since the poll started) at which it returned. -/
structure PollResult where
  ok : Bool
  reason : String
  elapsed : ℕ
deriving DecidableEq

/-- The polling loop of `wait_for_vm_running` (measure-capacity.py lines
357-391).  `status_of t` is what `get_vm_status` reports `t` seconds after
the poll started; the loop samples at `t = 0, 5, 10, …` (the sleep is the
literal 5 of line 388), tracking in `scheduling_start` when the current
contiguous run of `Scheduling` observations began.  In the source the
`Scheduling` bookkeeping precedes the error-state checks within one
iteration, but since `Scheduling` is in neither error list the two never
both apply to one sample. -/
def waitRunningLoop (status_of : ℕ → String) (timeout scheduling_timeout : ℕ) :
    ℕ → ℕ → Option ℕ → PollResult
  | 0, t, _ => ⟨false, "timeout", t⟩
  | fuel + 1, t, scheduling_start =>
    if t < timeout then
      if status_of t = "Running" then ⟨true, "", t⟩
      else if status_of t = "Scheduling" then
        match scheduling_start with
        | none => waitRunningLoop status_of timeout scheduling_timeout fuel (t + 5) (some t)
        | some s =>
          if t - s > scheduling_timeout then ⟨false, "scheduling", t⟩
          else waitRunningLoop status_of timeout scheduling_timeout fuel (t + 5) (some s)
      else if status_of t = "ErrorUnschedulable" then ⟨false, "capacity", t⟩
      else if status_of t ∈ error_states then ⟨false, "error", t⟩
      else waitRunningLoop status_of timeout scheduling_timeout fuel (t + 5) none
    else ⟨false, "timeout", t⟩

/-- `wait_for_vm_running` (measure-capacity.py lines 338-391).  The fuel
`timeout + 1` exceeds the number of loop iterations, which advance the
clock by 5 each time. -/
def wait_for_vm_running (status_of : ℕ → String) (timeout scheduling_timeout : ℕ) :
    PollResult :=
  waitRunningLoop status_of timeout scheduling_timeout (timeout + 1) 0 none

/-- What one `wait_for_vm_running` call produced for a VM, as seen by
`wait_for_vms_running`: `(True, _)`, `(False, reason)`, or a raised
exception. -/
inductive WorkRes
  | ok
  | fail (reason : String)
  | exn (msg : String)
deriving DecidableEq

/-- Return value of `wait_for_vms_running` plus, as instrumentation, the
list of VM names on which `wait_for_vm_running` was actually invoked. -/
structure BatchResult where
  successful : List String
  failed : List String
  failure_reason : String
  invoked : List String
deriving DecidableEq

/-- The sequential loop of `wait_for_vms_running` (measure-capacity.py lines
410-436).  `work vm` is what the per-VM wait produced.  On a failure whose
reason is `scheduling` or `capacity` with targets still unprocessed, the
remaining names — located by `vm_names.index(vm_name) + 1`, i.e. from after
the first occurrence of the failing name — are appended to the failed list
and the loop breaks; an exception records the VM as failed with reason
`error` and continues. -/
def waitVMsLoop (work : String → WorkRes) (vm_names : List String) :
    List String → List String → List String → String → List String → BatchResult
  | [], succ, fld, fr, inv => ⟨succ, fld, fr, inv⟩
  | vm :: rest, succ, fld, fr, inv =>
    let inv' := inv ++ [vm]
    match work vm with
    | .ok => waitVMsLoop work vm_names rest (succ ++ [vm]) fld fr inv'
    | .exn _ => waitVMsLoop work vm_names rest succ (fld ++ [vm]) "error" inv'
    | .fail reason =>
      let fld' := fld ++ [vm]
      if reason = "scheduling" ∨ reason = "capacity" then
        if 0 < vm_names.length - succ.length - fld'.length then
          let remaining_idx := vm_names.findIdx (fun x => x == vm) + 1
          ⟨succ, fld' ++ vm_names.drop remaining_idx, reason, inv'⟩
        else ⟨succ, fld', reason, inv'⟩
      else waitVMsLoop work vm_names rest succ fld' reason inv'

/-- `wait_for_vms_running` (measure-capacity.py lines 394-436). -/
def wait_for_vms_running (work : String → WorkRes) (vm_names : List String) :
    BatchResult :=
  waitVMsLoop work vm_names vm_names [] [] "" []

/-- Whether a per-VM result makes `wait_for_vms_running` stop early
(measure-capacity.py line 423). -/
def stopsBatch (w : WorkRes) : Bool :=
  match w with
  | .fail reason => reason == "scheduling" || reason == "capacity"
  | _ => false

/-- Whether a per-VM result counts the VM as successful. -/
def isOk (w : WorkRes) : Bool :=
  match w with
  | .ok => true
  | _ => false

/-- Outcome of `run_iteration` as consumed by `main`
(measure-capacity.py lines 439-455 and 770). -/
structure IterationOutcome where
  success : Bool
  capacity_reached : Bool
  vms_created : ℕ

/-- What a completed capacity run ends with: the `end_reason`, the total VM
count, and the value `main` returns to `sys.exit`. -/
structure RunEnd where
  end_reason : String
  total_vms : ℕ
  exit_code : ℕ
deriving DecidableEq

/-- The iteration loop of the capacity driver's `main`
(measure-capacity.py lines 751-795): stop with `max_iterations` when the cap
is exceeded, with `capacity` or `error` when an iteration fails, otherwise
continue.  `none` models a run that has not terminated within `fuel`
iterations (possible since `max_iterations = 0` means unlimited). -/
def mainLoop (iteration_outcome : ℕ → IterationOutcome) (max_iterations : ℕ) :
    ℕ → ℕ → ℕ → Option (String × ℕ)
  | 0, _, _ => none
  | fuel + 1, iteration, total =>
    if 0 < max_iterations ∧ max_iterations < iteration then some ("max_iterations", total)
    else
      let out := iteration_outcome iteration
      let total' := total + out.vms_created
      if out.success = false then
        if out.capacity_reached then some ("capacity", total')
        else some ("error", total')
      else mainLoop iteration_outcome max_iterations fuel (iteration + 1) total'

/-- The capacity driver's `main` after namespace creation succeeded and not
in cleanup-only mode (measure-capacity.py lines 751-864): however the
iteration loop ends, the function falls through to `return 0` (line 864) —
the `end_reason` is only printed and saved, never turned into an exit
code. -/
def capacity_main (iteration_outcome : ℕ → IterationOutcome)
    (max_iterations fuel : ℕ) : Option RunEnd :=
  (mainLoop iteration_outcome max_iterations fuel 1 0).map (fun p => ⟨p.1, p.2, 0⟩)

end Capacity

namespace Common

/-- Return value of `wait_for_migration_complete`: `(success,
observed_duration, target_node, vmim_duration)` (utils/common.py line
1433). -/
structure MigrationOutcome where
  ok : Bool
  observed : ℕ
  target_node : Option String
  vmim_duration : Option ℚ
deriving DecidableEq

/-- `calculate_vmim_duration` (utils/common.py lines 1394-1416) on
timestamps that parsed to seconds: the difference of the two instants. -/
def calculate_vmim_duration (start_ts end_ts : ℚ) : ℚ := end_ts - start_ts

/-- The polling loop of `wait_for_migration_complete` (utils/common.py
lines 1443-1485).  `node_of t` is `get_vm_node` at `t` seconds,
`vmim_of t` the `(startTimestamp, endTimestamp, phase)` triple of
`get_vmim_timestamps`, `mig_status t` the `get_migration_status` value.
When the node differs from `original_node`, the authoritative duration is
computed only when both timestamps are present (`if start_ts and end_ts`,
line 1455); otherwise it stays `None`. -/
def migrationLoop (node_of : ℕ → Option String)
    (vmim_of : ℕ → Option ℚ × Option ℚ × Option String)
    (mig_status : ℕ → Option String) (original_node : Option String)
    (timeout poll_interval : ℕ) : ℕ → ℕ → MigrationOutcome
  | 0, _ => ⟨false, timeout, none, none⟩
  | fuel + 1, t =>
    if t < timeout then
      let moved : Option String :=
        match node_of t with
        | some c => if some c ≠ original_node then some c else none
        | none => none
      match moved with
      | some c =>
        let ts := vmim_of t
        let vmim_duration : Option ℚ :=
          match ts.1, ts.2.1 with
          | some s, some e => some (calculate_vmim_duration s e)
          | _, _ => none
        ⟨true, t, some c, vmim_duration⟩
      | none =>
        let vmim_phase_failed : Bool :=
          match (vmim_of t).2.2 with
          | some ph => pyLower ph = "failed"
          | none => false
        if vmim_phase_failed then ⟨false, t, none, none⟩
        else if mig_status t = some "Failed" then ⟨false, t, none, none⟩
        else migrationLoop node_of vmim_of mig_status original_node timeout poll_interval fuel
          (t + poll_interval)
    else ⟨false, timeout, none, none⟩

/-- `wait_for_migration_complete` (utils/common.py lines 1419-1485):
`original_node` is read once before the loop (line 1438), and the fuel
covers every iteration for any positive `poll_interval`. -/
def wait_for_migration_complete (node_of : ℕ → Option String)
    (vmim_of : ℕ → Option ℚ × Option ℚ × Option String)
    (mig_status : ℕ → Option String) (timeout poll_interval : ℕ) :
    MigrationOutcome :=
  migrationLoop node_of vmim_of mig_status (node_of 0) timeout poll_interval (timeout + 1) 0

end Common

namespace Clone

/-- What `track_clone_progress` ends with: the clone start and end instants
(seconds relative to `start_ts`; the inferred start can be negative), the
reported duration, and — as instrumentation of the local variable
`clone_inferred`, which the source only logs — whether the start was
inferred. -/
structure CloneTrack where
  clone_start : Option ℤ
  clone_end : Option ℤ
  duration : Option ℚ
  inferred : Bool
deriving DecidableEq

/-- The polling loop of `track_clone_progress`
(datasource-clone/measure-vm-creation-time.py lines 452-497).  `phase_of t`
is the DataVolume phase the `kubectl get dv` at elapsed time `t` reports
(`none` when the command fails or prints nothing).  A first
`CloneScheduled` observation records the start; `CSICloneInProgress`
without a recorded start infers `now - poll_interval`; `Succeeded` without
a recorded start infers likewise, records the end and stops; `Failed`
aborts; any other phase just sleeps.  Returns the `(clone_start,
clone_end, clone_inferred)` state at loop exit. -/
def cloneLoop (phase_of : ℕ → Option String) (poll_interval timeout : ℕ) :
    ℕ → ℕ → Option ℤ → Bool → (Option ℤ × Option ℤ × Bool) × Bool
  | 0, _, clone_start, inferred => ((clone_start, none, inferred), false)
  | fuel + 1, t, clone_start, inferred =>
    if t < timeout then
      match phase_of t with
      | none => cloneLoop phase_of poll_interval timeout fuel (t + poll_interval) clone_start inferred
      | some ph =>
        let phase := pyLower ph
        if phase = "clonescheduled" ∧ clone_start = none then
          cloneLoop phase_of poll_interval timeout fuel (t + poll_interval) (some (t : ℤ)) inferred
        else if phase = "csicloneinprogress" ∧ clone_start = none then
          cloneLoop phase_of poll_interval timeout fuel (t + poll_interval)
            (some ((t : ℤ) - poll_interval)) true
        else if phase = "succeeded" then
          match clone_start with
          | none => ((some ((t : ℤ) - poll_interval), some (t : ℤ), true), false)
          | some s => ((some s, some (t : ℤ), inferred), false)
        else if phase = "failed" then ((none, none, inferred), true)
        else cloneLoop phase_of poll_interval timeout fuel (t + poll_interval) clone_start inferred
    else ((clone_start, none, inferred), false)

/-- `track_clone_progress` (measure-vm-creation-time.py lines 426-506).
The second component of the loop result records the `Failed` early return
(lines 488-490), which yields `(None, None, None)`.  Otherwise, when both
instants were recorded the duration is `round(end - start, 2)` (line 500);
an incomplete track also yields `(None, None, None)` (lines 504-506).  The
fuel covers every iteration for any positive `poll_interval`. -/
def track_clone_progress (phase_of : ℕ → Option String) (poll_interval timeout : ℕ) :
    CloneTrack :=
  let r := cloneLoop phase_of poll_interval timeout (timeout + 1) 0 none false
  if r.2 then ⟨none, none, none, r.1.2.2⟩
  else
    match r.1.1, r.1.2.1 with
    | some s, some e => ⟨some s, some e, some (pyRound2 ((e - s : ℤ) : ℚ)), r.1.2.2⟩
    | _, _ => ⟨none, none, none, r.1.2.2⟩

end Clone

namespace Common

/-- The per-metric summary shape shared by `calc_stats` inside
`save_results` (utils/common.py lines 1825-1832) and the inline metric
entries of `save_migration_results` (lines 1935-1949). -/
structure Stats where
  avg : Option ℚ
  maxv : Option ℚ
  minv : Option ℚ
  count : ℕ
deriving DecidableEq

/-- `calc_stats` of `save_results` (utils/common.py lines 1825-1832):
average, maximum and minimum (each rounded to two decimals) of the value
list when it is nonempty, `None` otherwise, plus the count.
`save_migration_results` computes the same four fields inline with the same
formulas (lines 1935-1949). -/
def calc_stats (values : List ℚ) : Stats :=
  match values with
  | [] => ⟨none, none, none, 0⟩
  | v :: vs =>
    ⟨some (pyRound2 ((v :: vs).sum / (v :: vs).length)),
     some (pyRound2 ((vs.foldl max v))),
     some (pyRound2 ((vs.foldl min v))),
     (v :: vs).length⟩

/-- One row of the datasource-clone results list: `(namespace,
running_time, ping_time, clone_duration, success)` as built by `monitor_vm`
and consumed by `save_results` (utils/common.py line 1791). -/
structure CloneRow where
  ns : String
  running_time : Option ℚ
  ping_time : Option ℚ
  clone_duration : Option ℚ
  success : Bool
deriving DecidableEq

/-- `running_times = [r[1] for r in results if r[1] is not None]`
(utils/common.py line 1821): the filter is only on presence, not on the
row's success flag. -/
def save_results_running_times (results : List CloneRow) : List ℚ :=
  results.filterMap (fun r => r.running_time)

/-- `ping_times` of `save_results` (utils/common.py line 1822). -/
def save_results_ping_times (results : List CloneRow) : List ℚ :=
  results.filterMap (fun r => r.ping_time)

/-- `clone_times` of `save_results` when the clone phase is not skipped
(utils/common.py line 1823). -/
def save_results_clone_times (results : List CloneRow) : List ℚ :=
  results.filterMap (fun r => r.clone_duration)

/-- One row of the migration results list: `(namespace, success,
observed_duration, source, target, vmim_duration)` as consumed by
`save_migration_results` (utils/common.py line 1901). -/
structure MigRow where
  ns : String
  success : Bool
  observed : Option ℚ
  source : Option String
  target : Option String
  vmim : Option ℚ
deriving DecidableEq

/-- Python truthiness of an optional float: `None` and `0.0` are falsy. -/
def optTruthy : Option ℚ → Bool
  | none => false
  | some q => q ≠ 0

/-- `observed_times = [r[2] for r in results if r[1] and r[2]]`
(utils/common.py line 1927): only rows that are successful and whose
observed duration is truthy contribute. -/
def save_migration_observed_times (results : List MigRow) : List ℚ :=
  results.filterMap (fun r =>
    match r.observed with
    | some q => if r.success = true ∧ q ≠ 0 then some q else none
    | none => none)

/-- `vmim_times = [r[5] for r in results if r[1] and r[5]]`
(utils/common.py line 1928). -/
def save_migration_vmim_times (results : List MigRow) : List ℚ :=
  results.filterMap (fun r =>
    match r.vmim with
    | some q => if r.success = true ∧ q ≠ 0 then some q else none
    | none => none)

/-- The running-time values the SPECIFICATION describes for the
`save_results` statistics — duration values present on successful outcomes
only ("computes count/avg/min/max only over values present on successful
outcomes … durations belonging to failed outcomes do not contribute").
Written from the spec's words, to be compared with
`save_results_running_times`, which is written from the code. -/
def spec_running_times (results : List CloneRow) : List ℚ :=
  (results.filter (fun r => r.success = true)).filterMap (fun r => r.running_time)

end Common

namespace Datasource

/-- The exit of the datasource-clone driver's `main`
(measure-vm-creation-time.py lines 741-743): count the rows whose success
flag is false and exit 0 exactly when there are none. -/
def main_exit_code (results : List Common.CloneRow) : ℕ :=
  if (results.filter (fun r => r.success = false)).length = 0 then 0 else 1

end Datasource

namespace Migration

/-- The interleaved-scheduling reordering of the migration driver's `main`
(measure-vm-migration-time.py lines 815-829): `group_size` is
`len(namespaces) // num_nodes or 1`, and the reordered list concatenates,
for each `offset` below `group_size`, the elements at indices `offset,
offset + group_size, …` — i.e. the ascending indices congruent to `offset`
modulo `group_size`, which is exactly Python's
`range(offset, total, group_size)`. -/
def reorder_interleaved (namespaces : List String) (num_nodes : ℕ) : List String :=
  let total := namespaces.length
  let group_size := if total / num_nodes = 0 then 1 else total / num_nodes
  (List.range group_size).flatMap (fun offset =>
    ((List.range total).filter (fun i => i % group_size = offset)).map
      (fun i => namespaces.getD i ""))

end Migration

/-- A DataVolume phase sample on which `track_clone_progress` takes no
action: the command failed, or the phase is none of the four it reacts
to. -/
def boringSample (o : Option String) : Bool :=
  match o with
  | none => true
  | some ph =>
    (pyLower ph != "clonescheduled") && (pyLower ph != "csicloneinprogress") &&
    (pyLower ph != "succeeded") && (pyLower ph != "failed")

/-! ## Lemmas about the retry loop -/

/-- A run in which every attempt fails either with a retryable stderr or
with a raised exception retries until attempts are exhausted, sleeping
`d * 2 ^ (attempt - 1)` between consecutive attempts. -/
theorem retryAttemptLoop_always_retry (retryable : String → Bool) (op : ℕ → AttemptResult)
    (max_retries : ℕ) (d : ℚ)
    (hop : ∀ k, (∃ msg, op k = .cmdError msg ∧ retryable msg = true) ∨
      ∃ msg, op k = .raised msg) :
    ∀ fuel attempt, 1 ≤ attempt → attempt + fuel = max_retries + 1 →
      retryAttemptLoop retryable op max_retries d fuel attempt =
        ⟨false, fuel, (List.range (fuel - 1)).map (fun i => d * 2 ^ (attempt - 1 + i))⟩ := by
  intro fuel
  induction fuel with
  | zero =>
    intro attempt h1 h2
    simp [retryAttemptLoop]
  | succ n ih =>
    intro attempt h1 h2
    rcases Nat.lt_or_ge attempt max_retries with hlt | hge
    · have hn : 1 ≤ n := by omega
      obtain ⟨m, rfl⟩ : ∃ m, n = m + 1 := ⟨n - 1, by omega⟩
      have hrest := ih (attempt + 1) (by omega) (by omega)
      have htail : (List.range (m + 1)).map (fun i => d * 2 ^ (attempt - 1 + i)) =
          d * 2 ^ (attempt - 1) ::
            (List.range m).map (fun i => d * 2 ^ (attempt + 1 - 1 + i)) := by
        rw [List.range_succ_eq_map, List.map_cons, List.map_map]
        refine congrArg₂ _ (by norm_num) (List.map_congr_left ?_)
        intro i _
        have : attempt - 1 + Nat.succ i = attempt + 1 - 1 + i := by omega
        simp [Function.comp, this]
      rcases hop attempt with ⟨msg, hmsg, hret⟩ | ⟨msg, hmsg⟩
      · rw [retryAttemptLoop, hmsg, hrest]
        simp [hret, hlt, htail]
      · rw [retryAttemptLoop, hmsg, hrest]
        simp [hlt, htail]
    · have heq : attempt = max_retries := by omega
      have hn : n = 0 := by omega
      subst hn
      rcases hop attempt with ⟨msg, hmsg, hret⟩ | ⟨msg, hmsg⟩
      · rw [retryAttemptLoop, hmsg]
        simp [heq]
      · rw [retryAttemptLoop, hmsg]
        simp [heq]

/-- A first attempt failing with a non-retryable stderr ends the loop at
once: one attempt, no sleeps, failure returned. -/
theorem retryAttemptLoop_nonretryable (retryable : String → Bool) (op : ℕ → AttemptResult)
    (max_retries : ℕ) (d : ℚ) (msg : String)
    (hmsg : op 1 = .cmdError msg) (hret : retryable msg = false)
    (hmax : 1 ≤ max_retries) :
    retryAttemptLoop retryable op max_retries d max_retries 1 = ⟨false, 1, []⟩ := by
  obtain ⟨m, rfl⟩ : ∃ m, max_retries = m + 1 := ⟨max_retries - 1, by omega⟩
  rw [retryAttemptLoop, hmsg]
  simp [hret]

/-- Reading the `i`-th element of `(List.range n).map f`. -/
theorem getD_map_range (f : ℕ → ℚ) (n i : ℕ) (h : i < n) :
    ((List.range n).map f).getD i 0 = f i := by
  rw [List.getD_eq_getElem?_getD, List.getElem?_map, List.getElem?_range h]
  rfl

/-! ## Lemmas about the state poller -/

/-- Unfolding of `waitRunningLoop` with fuel left. -/
theorem waitRunningLoop_succ (status_of : ℕ → String) (timeout T fuel t : ℕ)
    (st : Option ℕ) :
    Capacity.waitRunningLoop status_of timeout T (fuel + 1) t st =
    (if t < timeout then
      if status_of t = "Running" then ⟨true, "", t⟩
      else if status_of t = "Scheduling" then
        match st with
        | none => Capacity.waitRunningLoop status_of timeout T fuel (t + 5) (some t)
        | some s =>
          if t - s > T then ⟨false, "scheduling", t⟩
          else Capacity.waitRunningLoop status_of timeout T fuel (t + 5) (some s)
      else if status_of t = "ErrorUnschedulable" then ⟨false, "capacity", t⟩
      else if status_of t ∈ Capacity.error_states then ⟨false, "error", t⟩
      else Capacity.waitRunningLoop status_of timeout T fuel (t + 5) none
    else ⟨false, "timeout", t⟩) := rfl

/-- Unfolding of `waitRunningLoop` out of fuel. -/
theorem waitRunningLoop_zero (status_of : ℕ → String) (timeout T t : ℕ) (st : Option ℕ) :
    Capacity.waitRunningLoop status_of timeout T 0 t st = ⟨false, "timeout", t⟩ := rfl

/-- While every sample is `Scheduling` and the sub-timer started at 0, the
poller keeps polling until the first sample time strictly beyond
`scheduling_timeout`, which is `5 * (scheduling_timeout / 5 + 1)`. -/
theorem waitRunningLoop_scheduling_run (status_of : ℕ → String) (timeout T : ℕ)
    (hsched : ∀ t, t ≤ T + 5 → status_of t = "Scheduling")
    (htimeout : T + 5 < timeout) :
    ∀ fuel k, 1 ≤ k → 5 * k ≤ T + 5 → T / 5 + 2 - k ≤ fuel →
      Capacity.waitRunningLoop status_of timeout T fuel (5 * k) (some 0) =
        ⟨false, "scheduling", 5 * (T / 5 + 1)⟩ := by
  intro fuel
  induction fuel with
  | zero =>
    intro k hk1 hk5 hfuel
    omega
  | succ n ih =>
    intro k hk1 hk5 hfuel
    have hs := hsched (5 * k) (by omega)
    rw [waitRunningLoop_succ, if_pos (show 5 * k < timeout by omega), if_neg (by
      rw [hs]; decide), if_pos hs]
    simp only []
    rcases Nat.lt_or_ge T (5 * k) with hTk | hTk
    · rw [if_pos (show 5 * k - 0 > T by omega)]
      have : 5 * k = 5 * (T / 5 + 1) := by omega
      rw [this]
    · rw [if_neg (show ¬ 5 * k - 0 > T by omega)]
      have : 5 * k + 5 = 5 * (k + 1) := by ring
      rw [this]
      exact ih (k + 1) (by omega) (by omega) (by omega)

/-- Any `scheduling` classification of the poller happens at the end of a
contiguous streak of `Scheduling` samples (taken every 5 seconds) that
started more than `scheduling_timeout` seconds before it. -/
theorem waitRunningLoop_scheduling_streak (status_of : ℕ → String) (timeout T : ℕ) :
    ∀ fuel t st e, 5 ∣ t →
      (∀ s, st = some s → 5 ∣ s ∧ s ≤ t ∧
        ∀ u, 5 ∣ u → s ≤ u → u < t → status_of u = "Scheduling") →
      Capacity.waitRunningLoop status_of timeout T fuel t st = ⟨false, "scheduling", e⟩ →
      ∃ t0, 5 ∣ t0 ∧ t0 ≤ e ∧ T < e - t0 ∧
        ∀ u, 5 ∣ u → t0 ≤ u → u ≤ e → status_of u = "Scheduling" := by
  intro fuel
  induction fuel with
  | zero =>
    intro t st e h5t hst heq
    rw [waitRunningLoop_zero] at heq
    simp at heq
  | succ n ih =>
    intro t st e h5t hst heq
    rw [waitRunningLoop_succ] at heq
    by_cases hg : t < timeout
    · rw [if_pos hg] at heq
      by_cases hR : status_of t = "Running"
      · rw [if_pos hR] at heq
        simp at heq
      · rw [if_neg hR] at heq
        by_cases hS : status_of t = "Scheduling"
        · rw [if_pos hS] at heq
          match st, hst with
          | none, _ =>
            simp only [] at heq
            refine ih (t + 5) (some t) e (by omega) ?_ heq
            intro s hs
            cases hs
            refine ⟨h5t, by omega, ?_⟩
            intro u h5u hu1 hu2
            have : u = t := by omega
            rwa [this]
          | some s, hst =>
            simp only [] at heq
            obtain ⟨h5s, hsle, hstreak⟩ := hst s rfl
            by_cases hexp : t - s > T
            · rw [if_pos hexp] at heq
              injection heq with h1 h2 h3
              subst h3
              exact ⟨s, h5s, hsle, by omega, fun u h5u hu1 hu2 => by
                rcases Nat.lt_or_ge u t with h | h
                · exact hstreak u h5u hu1 h
                · have hut : u = t := by omega
                  rwa [hut]⟩
            · rw [if_neg hexp] at heq
              refine ih (t + 5) (some s) e (by omega) ?_ heq
              intro s' hs'
              cases hs'
              refine ⟨h5s, by omega, ?_⟩
              intro u h5u hu1 hu2
              rcases Nat.lt_or_ge u t with h | h
              · exact hstreak u h5u hu1 h
              · have : u = t := by omega
                rwa [this]
        · rw [if_neg hS] at heq
          by_cases hU : status_of t = "ErrorUnschedulable"
          · rw [if_pos hU] at heq
            simp at heq
          · rw [if_neg hU] at heq
            by_cases hE : status_of t ∈ Capacity.error_states
            · rw [if_pos hE] at heq
              simp at heq
            · rw [if_neg hE] at heq
              refine ih (t + 5) none e (by omega) ?_ heq
              intro s hs
              cases hs
    · rw [if_neg hg] at heq
      simp at heq

/-! ## C2: backoff schedule of the retrying create executor -/

/-- C2: when every attempt fails with a stderr matching a retryable
pattern, `create_vm_with_data_volumes` with `max_retries = n` and
`initial_delay = d` makes exactly `n` attempts, returns failure, and the
delay slept before the k-th retry (1-indexed; the k-th retry is attempt
k+1) is `d * 2 ^ (k - 1)` — the backoff multiplier is the code's fixed
2. -/
theorem retry_policy_attempts_and_backoff (op : ℕ → AttemptResult) (n : ℕ) (d : ℚ)
    (hop : ∀ k, ∃ msg, op k = AttemptResult.cmdError msg ∧ Capacity.is_retryable msg = true) :
    (Capacity.create_vm_with_data_volumes op n d).ok = false ∧
    (Capacity.create_vm_with_data_volumes op n d).attempts = n ∧
    (Capacity.create_vm_with_data_volumes op n d).delays =
      (List.range (n - 1)).map (fun i => d * 2 ^ i) ∧
    ∀ k, 1 ≤ k → k < n →
      (Capacity.create_vm_with_data_volumes op n d).delays.getD (k - 1) 0 =
        d * 2 ^ (k - 1) := by
  have h := retryAttemptLoop_always_retry Capacity.is_retryable op n d
    (fun k => Or.inl (hop k)) n 1 le_rfl (by omega)
  rw [Capacity.create_vm_with_data_volumes, h]
  refine ⟨rfl, rfl, by simp, ?_⟩
  intro k hk1 hkn
  rw [show (fun i => d * 2 ^ (1 - 1 + i)) = fun i => d * 2 ^ i by funext i; norm_num]
  exact getD_map_range _ _ _ (by omega)

/-- Witness for C2 at `op = const (cmdError "timeout")`, `n = 3`,
`d = 2`: three attempts, first retry delay 2. -/
theorem retry_policy_attempts_and_backoff_witness :
    (Capacity.create_vm_with_data_volumes (fun _ => .cmdError "timeout") 3 2).attempts = 3 ∧
    (Capacity.create_vm_with_data_volumes (fun _ => .cmdError "timeout") 3 2).delays.getD 0 0
      = 2 := by
  have h := retry_policy_attempts_and_backoff (fun _ => .cmdError "timeout") 3 2
    (fun k => ⟨"timeout", rfl, by decide⟩)
  refine ⟨h.2.1, ?_⟩
  have h1 := h.2.2.2 1 le_rfl (by omega)
  simpa using h1

/-! ## C3: non-retryable failures of the retrying create executor -/

/-- C3 counterexample: a failure delivered as a raised exception is retried
to exhaustion, not stopped after one attempt — with `max_retries = 3` an
always-raising operation is attempted 3 times in both create executors,
refuting the claim that any failure matching no retryable pattern ends
after exactly 1 attempt. -/
theorem nonretryable_exception_counterexample :
    (Capacity.create_vm_with_data_volumes (fun _ => .raised "boom") 3 2).attempts = 3 ∧
    (Migration.create_vm_attempts (fun _ => .raised "boom") 3 2).attempts = 3 ∧
    ¬ (Capacity.create_vm_with_data_volumes (fun _ => .raised "boom") 3 2).attempts = 1 := by
  refine ⟨?_, ?_, ?_⟩ <;>
    simp [Capacity.create_vm_with_data_volumes, Migration.create_vm_attempts, retryAttemptLoop]

/-- C3 amended: a failure delivered as command stderr matching no retryable
pattern ends `create_vm_with_data_volumes` (and the `create_vms_on_node`
loop) after exactly 1 attempt, with no sleeps, and failure is returned at
once; a failure delivered as a raised exception, by contrast, is retried
up to `max_retries` times regardless of the patterns. -/
theorem nonretryable_stderr_single_attempt (op op₂ opr : ℕ → AttemptResult)
    (max_retries : ℕ) (d : ℚ) (msg msg₂ : String)
    (hmsg : op 1 = AttemptResult.cmdError msg) (hret : Capacity.is_retryable msg = false)
    (hmsg₂ : op₂ 1 = AttemptResult.cmdError msg₂) (hret₂ : Migration.is_retryable msg₂ = false)
    (hopr : ∀ k, ∃ m, opr k = AttemptResult.raised m)
    (hmax : 1 ≤ max_retries) :
    Capacity.create_vm_with_data_volumes op max_retries d = ⟨false, 1, []⟩ ∧
    Migration.create_vm_attempts op₂ max_retries d = ⟨false, 1, []⟩ ∧
    (Capacity.create_vm_with_data_volumes opr max_retries d).attempts = max_retries := by
  refine ⟨retryAttemptLoop_nonretryable _ _ _ _ _ hmsg hret hmax,
    retryAttemptLoop_nonretryable _ _ _ _ _ hmsg₂ hret₂ hmax, ?_⟩
  have h := retryAttemptLoop_always_retry Capacity.is_retryable opr max_retries d
    (fun k => Or.inr (hopr k)) max_retries 1 le_rfl (by omega)
  rw [Capacity.create_vm_with_data_volumes, h]

/-- Witness for the amended C3 with `max_retries = 4`: a `Forbidden` stderr
stops both executors after one attempt while an always-raising operation is
attempted 4 times. -/
theorem nonretryable_stderr_single_attempt_witness :
    Capacity.create_vm_with_data_volumes (fun _ => .cmdError "Forbidden") 4 2 = ⟨false, 1, []⟩ ∧
    Migration.create_vm_attempts (fun _ => .cmdError "Forbidden") 4 2 = ⟨false, 1, []⟩ ∧
    (Capacity.create_vm_with_data_volumes (fun _ => .raised "boom") 4 2).attempts = 4 :=
  nonretryable_stderr_single_attempt (fun _ => .cmdError "Forbidden")
    (fun _ => .cmdError "Forbidden") (fun _ => .raised "boom") 4 2 "Forbidden" "Forbidden"
    rfl (by decide) rfl (by decide) (fun _ => ⟨"boom", rfl⟩) (by omega)

/-! ## C4: when the exhaustion classification fires -/

/-- C4 counterexample: with the default `scheduling_timeout = 120` — a
multiple of the 5-second poll interval — and a VM continuously in
`Scheduling`, the poller classifies `scheduling` at elapsed time 125,
which is not strictly less than `scheduling_timeout + poll_interval`. -/
theorem exhaustion_time_counterexample :
    Capacity.wait_for_vm_running (fun _ => "Scheduling") 131 120 =
      ⟨false, "scheduling", 125⟩ ∧ ¬ ((125 : ℕ) < 120 + 5) :=
  ⟨by decide, by omega⟩

/-- C4 amended: if the status oracle reports the exhaustion phase
`Scheduling` continuously (through `scheduling_timeout + 5`) and the global
timeout has room, the poller returns the `scheduling` classification at the
elapsed time `5 * (scheduling_timeout / 5 + 1)` after the phase was first
observed — strictly greater than `scheduling_timeout` and at most
`scheduling_timeout + 5` (the poll interval of this loop), with equality
exactly when 5 divides `scheduling_timeout`. -/
theorem exhaustion_classified_within_one_poll (status_of : ℕ → String) (timeout T : ℕ)
    (hsched : ∀ t, t ≤ T + 5 → status_of t = "Scheduling")
    (htimeout : T + 5 < timeout) :
    Capacity.wait_for_vm_running status_of timeout T =
      ⟨false, "scheduling", 5 * (T / 5 + 1)⟩ ∧
    T < 5 * (T / 5 + 1) ∧ 5 * (T / 5 + 1) ≤ T + 5 := by
  refine ⟨?_, by omega, by omega⟩
  rw [Capacity.wait_for_vm_running, waitRunningLoop_succ,
    if_pos (show 0 < timeout by omega),
    if_neg (by rw [hsched 0 (by omega)]; decide), if_pos (hsched 0 (by omega))]
  simp only []
  rw [show 0 + 5 = 5 * 1 by norm_num]
  exact waitRunningLoop_scheduling_run status_of timeout T hsched htimeout timeout 1
    le_rfl (by omega) (by omega)

/-- Witness for the amended C4 at `T = 7`, constant `Scheduling` oracle,
`timeout = 100`: classification at elapsed 10, with 7 < 10 ≤ 12. -/
theorem exhaustion_classified_within_one_poll_witness :
    Capacity.wait_for_vm_running (fun _ => "Scheduling") 100 7 =
      ⟨false, "scheduling", 10⟩ ∧ (7 : ℕ) < 10 ∧ (10 : ℕ) ≤ 7 + 5 := by
  have h := exhaustion_classified_within_one_poll (fun _ => "Scheduling") 100 7
    (fun t _ => rfl) (by omega)
  exact ⟨h.1, by omega, by omega⟩

/-! ## C5: the exhaustion sub-timer resets on any other phase -/

/-- C5: whenever the poller classifies `scheduling` at elapsed time `e`,
every sample taken at or after any non-`Scheduling` observation time `m`
(`m ≤ e`, sample times are multiples of 5) up to `e` lay in a contiguous
`Scheduling` streak that began after `m`, so the classification happens
only once a full `scheduling_timeout` has elapsed in-phase after `m`:
`m + scheduling_timeout < e`.  In particular an oracle that is in
`Scheduling` for half the timeout, leaves it, and re-enters it is not
classified until a full timeout elapses after re-entry. -/
theorem scheduling_subtimer_resets (status_of : ℕ → String) (timeout T m e : ℕ)
    (hres : Capacity.wait_for_vm_running status_of timeout T = ⟨false, "scheduling", e⟩)
    (h5m : 5 ∣ m) (hm : status_of m ≠ "Scheduling") (hme : m ≤ e) :
    m + T < e := by
  obtain ⟨t0, h5t0, ht0e, hTe, hstreak⟩ :=
    waitRunningLoop_scheduling_streak status_of timeout T (timeout + 1) 0 none e
      (by omega) (by intro s hs; cases hs) hres
  rcases Nat.lt_or_ge m t0 with h | h
  · omega
  · exact absurd (hstreak m h5m h hme) hm

/-- Witness for C5: the oracle is `Scheduling` except at time 5
(`Starting`), with `scheduling_timeout = 7`; the run classifies at elapsed
20 and indeed `5 + 7 < 20`. -/
theorem scheduling_subtimer_resets_witness : (5 : ℕ) + 7 < 20 :=
  scheduling_subtimer_resets (fun t => if t = 5 then "Starting" else "Scheduling")
    100 7 5 20 (by decide) (by decide) (by decide) (by omega)

/-- `round(x, 2)` on an integer value is that value. -/
theorem pyRound2_intCast (n : ℤ) : pyRound2 ((n : ℤ) : ℚ) = ((n : ℤ) : ℚ) := by
  rw [pyRound2, show (((n : ℤ) : ℚ) * 100) = ((n * 100 : ℤ) : ℚ) by push_cast; ring,
    round_intCast]
  push_cast
  ring

/-! ## Lemmas about the migration and clone trackers -/

/-- Unfolding of `migrationLoop` with fuel left. -/
theorem migrationLoop_succ (node_of : ℕ → Option String)
    (vmim_of : ℕ → Option ℚ × Option ℚ × Option String)
    (mig_status : ℕ → Option String) (original : Option String)
    (timeout p fuel t : ℕ) :
    Common.migrationLoop node_of vmim_of mig_status original timeout p (fuel + 1) t =
    (if t < timeout then
      match (match node_of t with
             | some c => if some c ≠ original then some c else none
             | none => none) with
      | some c =>
        ⟨true, t, some c,
          match (vmim_of t).1, (vmim_of t).2.1 with
          | some s, some e => some (Common.calculate_vmim_duration s e)
          | _, _ => none⟩
      | none =>
        if (match (vmim_of t).2.2 with
            | some ph => decide (pyLower ph = "failed")
            | none => false) then ⟨false, t, none, none⟩
        else if mig_status t = some "Failed" then ⟨false, t, none, none⟩
        else Common.migrationLoop node_of vmim_of mig_status original timeout p fuel (t + p)
    else ⟨false, timeout, none, none⟩) := rfl

/-- Unfolding of `migrationLoop` out of fuel. -/
theorem migrationLoop_zero (node_of : ℕ → Option String)
    (vmim_of : ℕ → Option ℚ × Option ℚ × Option String)
    (mig_status : ℕ → Option String) (original : Option String) (timeout p t : ℕ) :
    Common.migrationLoop node_of vmim_of mig_status original timeout p 0 t =
      ⟨false, timeout, none, none⟩ := rfl

/-- Whenever `wait_for_migration_complete` reports success but the
control plane's start timestamp is absent at the detection instant, the
returned authoritative duration is `none` — nothing is inferred. -/
theorem migrationLoop_absent_start (node_of : ℕ → Option String)
    (vmim_of : ℕ → Option ℚ × Option ℚ × Option String)
    (mig_status : ℕ → Option String) (original : Option String) (timeout p : ℕ) :
    ∀ fuel t r,
      Common.migrationLoop node_of vmim_of mig_status original timeout p fuel t = r →
      r.ok = true → (vmim_of r.observed).1 = none → r.vmim_duration = none := by
  intro fuel
  induction fuel with
  | zero =>
    intro t r heq hok hnone
    rw [migrationLoop_zero] at heq
    subst heq
    simp at hok
  | succ n ih =>
    intro t r heq hok hnone
    rw [migrationLoop_succ] at heq
    by_cases hg : t < timeout
    · rw [if_pos hg] at heq
      cases hnode : node_of t with
      | some c =>
        rw [hnode] at heq
        simp only [] at heq
        by_cases hmv : some c ≠ original
        · rw [if_pos hmv] at heq
          simp only [] at heq
          subst heq
          simp only [] at hnone ⊢
          rw [hnone]
        · rw [if_neg hmv] at heq
          simp only [] at heq
          by_cases hb : (match (vmim_of t).2.2 with
              | some ph => decide (pyLower ph = "failed")
              | none => false) = true
          · rw [if_pos hb] at heq
            subst heq
            simp at hok
          · rw [if_neg hb] at heq
            by_cases hc : mig_status t = some "Failed"
            · rw [if_pos hc] at heq
              subst heq
              simp at hok
            · rw [if_neg hc] at heq
              exact ih (t + p) r heq hok hnone
      | none =>
        rw [hnode] at heq
        simp only [] at heq
        by_cases hb : (match (vmim_of t).2.2 with
            | some ph => decide (pyLower ph = "failed")
            | none => false) = true
        · rw [if_pos hb] at heq
          subst heq
          simp at hok
        · rw [if_neg hb] at heq
          by_cases hc : mig_status t = some "Failed"
          · rw [if_pos hc] at heq
            subst heq
            simp at hok
          · rw [if_neg hc] at heq
            exact ih (t + p) r heq hok hnone
    · rw [if_neg hg] at heq
      subst heq
      simp at hok

/-- Unfolding of `cloneLoop` with fuel left. -/
theorem cloneLoop_succ (phase_of : ℕ → Option String) (p timeout fuel t : ℕ)
    (clone_start : Option ℤ) (inferred : Bool) :
    Clone.cloneLoop phase_of p timeout (fuel + 1) t clone_start inferred =
    (if t < timeout then
      match phase_of t with
      | none => Clone.cloneLoop phase_of p timeout fuel (t + p) clone_start inferred
      | some ph =>
        if pyLower ph = "clonescheduled" ∧ clone_start = none then
          Clone.cloneLoop phase_of p timeout fuel (t + p) (some (t : ℤ)) inferred
        else if pyLower ph = "csicloneinprogress" ∧ clone_start = none then
          Clone.cloneLoop phase_of p timeout fuel (t + p) (some ((t : ℤ) - p)) true
        else if pyLower ph = "succeeded" then
          match clone_start with
          | none => ((some ((t : ℤ) - p), some (t : ℤ), true), false)
          | some s => ((some s, some (t : ℤ), inferred), false)
        else if pyLower ph = "failed" then ((none, none, inferred), true)
        else Clone.cloneLoop phase_of p timeout fuel (t + p) clone_start inferred
    else ((clone_start, none, inferred), false)) := rfl

/-- Run of `cloneLoop` over boring samples up to a first `Succeeded`
sample at time `p * j`: the start is inferred as `p * j - p` and the loop
stops at `p * j`. -/
theorem cloneLoop_skipped_to_succeeded (phase_of : ℕ → Option String) (p timeout j : ℕ)
    (hj : p * j < timeout)
    (hbor : ∀ i, i < j → boringSample (phase_of (p * i)) = true)
    (ph_j : String) (hph : phase_of (p * j) = some ph_j)
    (hlow : pyLower ph_j = "succeeded") :
    ∀ fuel k, k ≤ j → j - k + 1 ≤ fuel →
      Clone.cloneLoop phase_of p timeout fuel (p * k) none false =
        ((some (((p * j : ℕ) : ℤ) - (p : ℤ)), some ((p * j : ℕ) : ℤ), true), false) := by
  intro fuel
  induction fuel with
  | zero =>
    intro k hk hfuel
    omega
  | succ n ih =>
    intro k hk hfuel
    have hle : p * k ≤ p * j := Nat.mul_le_mul_left p hk
    rw [cloneLoop_succ, if_pos (by omega)]
    rcases Nat.lt_or_ge k j with hkj | hkj
    · have hb := hbor k hkj
      cases hpk : phase_of (p * k) with
      | none =>
        rw [show p * k + p = p * (k + 1) by ring]
        exact ih (k + 1) (by omega) (by omega)
      | some ph =>
        rw [hpk] at hb
        simp only [boringSample, Bool.and_eq_true, bne_iff_ne] at hb
        obtain ⟨⟨⟨h1, h2⟩, h3⟩, h4⟩ := hb
        simp only []
        rw [if_neg (by simp [h1]), if_neg (by simp [h2]), if_neg h3, if_neg h4]
        rw [show p * k + p = p * (k + 1) by ring]
        exact ih (k + 1) (by omega) (by omega)
    · have hkj2 : k = j := by omega
      subst hkj2
      rw [hph]
      simp only []
      rw [if_neg (by rw [hlow]; simp), if_neg (by rw [hlow]; simp), if_pos hlow]

/-! ## C7: absent authoritative start timestamp -/

/-- C7 counterexample: a migration detected complete at the first poll
after 2 seconds whose VMIM object reports an end timestamp but no start
timestamp yields `vmim_duration = None`, not the claimed
`pollInterval`-valued inferred duration (and `wait_for_migration_complete`
has no `authoritativeStartInferred` output at all). -/
theorem migration_no_inference_counterexample :
    Common.wait_for_migration_complete
      (fun t => if t < 2 then some "n1" else some "n2")
      (fun _ => (none, some 100, some "Running"))
      (fun _ => none) 10 2 =
      ⟨true, 2, some "n2", none⟩ ∧
    ¬ (Common.wait_for_migration_complete
      (fun t => if t < 2 then some "n1" else some "n2")
      (fun _ => (none, some 100, some "Running"))
      (fun _ => none) 10 2).vmim_duration = some (2 : ℚ) := by
  constructor
  · decide
  · decide

/-- C7 amended: in `wait_for_migration_complete` an absent authoritative
start timestamp makes the returned authoritative duration absent (`None`)
— no start is inferred and no inferred flag exists there.  The claimed
inference lives only in the DataVolume tracker `track_clone_progress`:
when the clone jumps straight to `Succeeded` at a sample time `p * j`
without any previously observed clone phase, the start is inferred as one
poll interval earlier, the reported duration equals the poll interval
exactly, and the (logged) inferred marker is set. -/
theorem migration_absent_start_and_clone_inference (node_of : ℕ → Option String)
    (vmim_of : ℕ → Option ℚ × Option ℚ × Option String)
    (mig_status : ℕ → Option String) (timeout p : ℕ)
    (phase_of : ℕ → Option String) (timeout₂ p₂ j : ℕ)
    (hp : 0 < p₂) (hj : p₂ * j < timeout₂)
    (hbor : ∀ i, i < j → boringSample (phase_of (p₂ * i)) = true)
    (ph_j : String) (hph : phase_of (p₂ * j) = some ph_j)
    (hlow : pyLower ph_j = "succeeded") :
    ((Common.wait_for_migration_complete node_of vmim_of mig_status timeout p).ok = true →
     (vmim_of (Common.wait_for_migration_complete node_of vmim_of mig_status
        timeout p).observed).1 = none →
     (Common.wait_for_migration_complete node_of vmim_of mig_status
        timeout p).vmim_duration = none) ∧
    Clone.track_clone_progress phase_of p₂ timeout₂ =
      ⟨some (((p₂ * j : ℕ) : ℤ) - (p₂ : ℤ)), some ((p₂ * j : ℕ) : ℤ),
       some ((p₂ : ℕ) : ℚ), true⟩ := by
  constructor
  · intro hok hnone
    exact migrationLoop_absent_start node_of vmim_of mig_status (node_of 0) timeout p
      (timeout + 1) 0 _ rfl hok hnone
  · have hjp : j ≤ p₂ * j := Nat.le_mul_of_pos_left j hp
    have hloop := cloneLoop_skipped_to_succeeded phase_of p₂ timeout₂ j hj hbor ph_j hph
      hlow (timeout₂ + 1) 0 (by omega) (by omega)
    rw [Nat.mul_zero] at hloop
    rw [Clone.track_clone_progress, hloop]
    simp only []
    have harith : ((p₂ * j : ℕ) : ℤ) - (((p₂ * j : ℕ) : ℤ) - (p₂ : ℤ)) = (p₂ : ℤ) := by
      push_cast; ring
    rw [harith, pyRound2_intCast]
    norm_num

/-- Witness for the amended C7: the migration of the counterexample
scenario reports an absent authoritative duration, and a DataVolume that
jumps straight to `Succeeded` at the third 2-second sample gets the
inferred start 2, end 4, duration exactly the poll interval 2, marked
inferred. -/
theorem migration_absent_start_and_clone_inference_witness :
    (Common.wait_for_migration_complete
      (fun t => if t < 2 then some "n1" else some "n2")
      (fun _ => (none, some 100, some "Running"))
      (fun _ => none) 10 2).vmim_duration = none ∧
    Clone.track_clone_progress (fun t => if t = 4 then some "Succeeded" else none) 2 10 =
      ⟨some 2, some 4, some 2, true⟩ := by
  have h := migration_absent_start_and_clone_inference
    (fun t => if t < 2 then some "n1" else some "n2")
    (fun _ => (none, some 100, some "Running"))
    (fun _ => none) 10 2
    (fun t => if t = 4 then some "Succeeded" else none) 10 2 2
    (by omega) (by omega) (by decide) "Succeeded" (by decide) (by decide)
  refine ⟨h.1 (by decide) (by decide), ?_⟩
  have h2 := h.2
  norm_num at h2
  exact h2

/-! ## Lemmas about the batch waiter -/

/-- Unfolding of `waitVMsLoop` on a nonempty worklist. -/
theorem waitVMsLoop_cons (work : String → Capacity.WorkRes) (vm_names : List String)
    (vm : String) (rest succ fld : List String) (fr : String) (inv : List String) :
    Capacity.waitVMsLoop work vm_names (vm :: rest) succ fld fr inv =
    (match work vm with
    | .ok => Capacity.waitVMsLoop work vm_names rest (succ ++ [vm]) fld fr (inv ++ [vm])
    | .exn _ => Capacity.waitVMsLoop work vm_names rest succ (fld ++ [vm]) "error" (inv ++ [vm])
    | .fail reason =>
      if reason = "scheduling" ∨ reason = "capacity" then
        if 0 < vm_names.length - succ.length - (fld ++ [vm]).length then
          ⟨succ, (fld ++ [vm]) ++
            vm_names.drop (vm_names.findIdx (fun x => x == vm) + 1), reason, inv ++ [vm]⟩
        else ⟨succ, fld ++ [vm], reason, inv ++ [vm]⟩
      else Capacity.waitVMsLoop work vm_names rest succ (fld ++ [vm]) reason (inv ++ [vm])) :=
  rfl

/-- `list.index(vm)` when `vm` heads the suffix and does not occur in the
prefix: the prefix length. -/
theorem findIdx_first_occurrence (inv rest : List String) (vm : String) (hvm : vm ∉ inv) :
    (inv ++ vm :: rest).findIdx (fun x => x == vm) = inv.length := by
  induction inv with
  | nil => simp [List.findIdx_cons]
  | cons a inv ih =>
    have ha : (a == vm) = false := by
      simp only [beq_eq_false_iff_ne]
      intro h
      exact hvm (h ▸ List.mem_cons_self a inv)
    simp only [List.cons_append, List.findIdx_cons, ha, cond_false, List.length_cons]
    rw [ih (fun h => hvm (List.mem_cons_of_mem a h))]

/-- Dropping past the head of the suffix. -/
theorem drop_past_head (inv rest : List String) (vm : String) :
    (inv ++ vm :: rest).drop (inv.length + 1) = rest := by
  rw [show inv ++ vm :: rest = (inv ++ [vm]) ++ rest by simp,
    show inv.length + 1 = (inv ++ [vm]).length by simp, List.drop_left]

/-- A failing name that stops the batch cannot occur among names whose work
result does not stop it. -/
theorem stop_not_mem (work : String → Capacity.WorkRes) (inv : List String) (vm : String)
    (r : String) (hvm : work vm = .fail r) (hr : r = "scheduling" ∨ r = "capacity")
    (hfree : ∀ x ∈ inv, Capacity.stopsBatch (work x) = false) : vm ∉ inv := by
  intro hmem
  have h := hfree vm hmem
  rw [hvm] at h
  rcases hr with h1 | h1 <;> simp [Capacity.stopsBatch, h1] at h

/-- Run of `waitVMsLoop` over a stop-free worklist segment followed by a
stopping name: the successes and failures of the segment are appended in
order, the stopping name and the whole untouched remainder land in the
failed list, and exactly the segment plus the stopping name were
invoked. -/
theorem waitVMsLoop_stop_run (work : String → Capacity.WorkRes) (all : List String)
    (vm : String) (rest : List String) (r : String)
    (hvm : work vm = .fail r) (hr : r = "scheduling" ∨ r = "capacity") :
    ∀ Q succ fld fr inv,
      (∀ x ∈ inv ++ Q, Capacity.stopsBatch (work x) = false) →
      all = (inv ++ Q) ++ vm :: rest →
      succ.length + fld.length = inv.length →
      Capacity.waitVMsLoop work all (Q ++ vm :: rest) succ fld fr inv =
        ⟨succ ++ Q.filter (fun x => Capacity.isOk (work x)),
         (fld ++ Q.filter (fun x => !(Capacity.isOk (work x)))) ++ vm :: rest,
         r, (inv ++ Q) ++ [vm]⟩ := by
  intro Q
  induction Q with
  | nil =>
    intro succ fld fr inv hfree hall hlen
    rw [List.nil_append, waitVMsLoop_cons, hvm]
    simp only []
    rw [if_pos hr]
    have hnm : vm ∉ inv := stop_not_mem work inv vm r hvm hr (by simpa using hfree)
    cases rest with
    | nil =>
      rw [if_neg (by simp [hall]; omega)]
      simp
    | cons y ys =>
      rw [if_pos (by simp [hall]; omega)]
      rw [hall, List.append_nil, findIdx_first_occurrence inv (y :: ys) vm hnm,
        drop_past_head]
      simp
  | cons q Q ih =>
    intro succ fld fr inv hfree hall hlen
    have hq : Capacity.stopsBatch (work q) = false := hfree q (by simp)
    rw [List.cons_append, waitVMsLoop_cons]
    cases hwq : work q with
    | ok =>
      simp only []
      rw [ih (succ ++ [q]) fld fr (inv ++ [q])
        (by intro x hx; refine hfree x ?_; simpa using hx)
        (by rw [hall]; simp) (by simp; omega)]
      have hok : Capacity.isOk (work q) = true := by rw [hwq]; rfl
      simp [List.filter_cons, hok]
    | exn m =>
      simp only []
      rw [ih succ (fld ++ [q]) "error" (inv ++ [q])
        (by intro x hx; refine hfree x ?_; simpa using hx)
        (by rw [hall]; simp) (by simp; omega)]
      have hok : Capacity.isOk (work q) = false := by rw [hwq]; rfl
      simp [List.filter_cons, hok]
    | fail r_1 =>
      have hr_1 : ¬ (r_1 = "scheduling" ∨ r_1 = "capacity") := by
        rw [hwq] at hq
        simp [Capacity.stopsBatch] at hq
        simpa using hq
      simp only []
      rw [if_neg hr_1]
      rw [ih succ (fld ++ [q]) r_1 (inv ++ [q])
        (by intro x hx; refine hfree x ?_; simpa using hx)
        (by rw [hall]; simp) (by simp; omega)]
      have hok : Capacity.isOk (work q) = false := by rw [hwq]; rfl
      simp [List.filter_cons, hok]

/-- Moving a freshly processed element to the end of the accumulated
prefix, success-list side. -/
theorem perm_snoc_left {α : Type} (s f i : List α) (a : α) (h : (s ++ f).Perm i) :
    ((s ++ [a]) ++ f).Perm (i ++ [a]) := by
  rw [List.append_assoc]
  refine List.Perm.trans (List.Perm.append_left s List.perm_append_comm) ?_
  rw [← List.append_assoc]
  exact h.append_right [a]

/-- Moving a freshly processed element to the end of the accumulated
prefix, failed-list side. -/
theorem perm_snoc_right {α : Type} (s f i : List α) (a : α) (h : (s ++ f).Perm i) :
    (s ++ (f ++ [a])).Perm (i ++ [a]) := by
  rw [← List.append_assoc]
  exact h.append_right [a]

/-- Every run of `waitVMsLoop` splits the submitted names between the
successful and failed lists: nothing is dropped and nothing duplicated. -/
theorem waitVMsLoop_partition (work : String → Capacity.WorkRes) (all : List String) :
    ∀ rem succ fld fr inv,
      all = inv ++ rem →
      succ.length + fld.length = inv.length →
      (succ ++ fld).Perm inv →
      (∀ x ∈ inv, Capacity.stopsBatch (work x) = false) →
      ((Capacity.waitVMsLoop work all rem succ fld fr inv).successful ++
       (Capacity.waitVMsLoop work all rem succ fld fr inv).failed).Perm all := by
  intro rem
  induction rem with
  | nil =>
    intro succ fld fr inv hall hlen hperm hfree
    simpa [Capacity.waitVMsLoop, hall] using hperm
  | cons vm rest ih =>
    intro succ fld fr inv hall hlen hperm hfree
    rw [waitVMsLoop_cons]
    cases hwvm : work vm with
    | ok =>
      simp only []
      refine ih (succ ++ [vm]) fld fr (inv ++ [vm]) (by rw [hall]; simp) (by simp; omega)
        (perm_snoc_left succ fld inv vm hperm) ?_
      intro x hx
      rcases List.mem_append.mp hx with h | h
      · exact hfree x h
      · rw [List.mem_singleton.mp h, hwvm]; rfl
    | exn m =>
      simp only []
      refine ih succ (fld ++ [vm]) "error" (inv ++ [vm]) (by rw [hall]; simp)
        (by simp; omega) (perm_snoc_right succ fld inv vm hperm) ?_
      intro x hx
      rcases List.mem_append.mp hx with h | h
      · exact hfree x h
      · rw [List.mem_singleton.mp h, hwvm]; rfl
    | fail r_1 =>
      simp only []
      by_cases hstop : r_1 = "scheduling" ∨ r_1 = "capacity"
      · rw [if_pos hstop]
        have hnm : vm ∉ inv := stop_not_mem work inv vm r_1 hwvm hstop hfree
        cases rest with
        | nil =>
          rw [if_neg (by simp [hall]; omega)]
          refine List.Perm.trans (perm_snoc_right succ fld inv vm hperm) ?_
          rw [hall]
        | cons y ys =>
          rw [if_pos (by simp [hall]; omega)]
          rw [hall, findIdx_first_occurrence inv (y :: ys) vm hnm, drop_past_head]
          show (succ ++ ((fld ++ [vm]) ++ y :: ys)).Perm (inv ++ vm :: y :: ys)
          have h1 := (perm_snoc_right succ fld inv vm hperm).append_right (y :: ys)
          refine List.Perm.trans ?_ (h1.trans (by simp))
          simp [List.append_assoc]
      · rw [if_neg hstop]
        refine ih succ (fld ++ [vm]) r_1 (inv ++ [vm]) (by rw [hall]; simp)
          (by simp; omega) (perm_snoc_right succ fld inv vm hperm) ?_
        intro x hx
        rcases List.mem_append.mp hx with h | h
        · exact hfree x h
        · rw [List.mem_singleton.mp h, hwvm]
          simp [Capacity.stopsBatch]
          simpa using hstop

/-! ## C6: early stop skips the remainder; outputs partition the input -/

/-- C6: for every per-target work function, (1) the successful and failed
output lists of `wait_for_vms_running` always partition the submitted list
(every target yields exactly one outcome), and (2) when a stop signal
(reason `scheduling` or `capacity`) first fires on a target `vm` after a
stop-free segment `P`, every target after `vm` is recorded in the failed
output without `wait_for_vm_running` ever being invoked on it — the invoked
list is exactly `P ++ [vm]`. -/
theorem dispatcher_stop_skips_and_partitions (work : String → Capacity.WorkRes) :
    (∀ names : List String,
      ((Capacity.wait_for_vms_running work names).successful ++
       (Capacity.wait_for_vms_running work names).failed).Perm names) ∧
    (∀ (P : List String) (vm : String) (rest : List String) (r : String),
      work vm = .fail r → (r = "scheduling" ∨ r = "capacity") →
      (∀ x ∈ P, Capacity.stopsBatch (work x) = false) →
      Capacity.wait_for_vms_running work (P ++ vm :: rest) =
        ⟨P.filter (fun x => Capacity.isOk (work x)),
         P.filter (fun x => !(Capacity.isOk (work x))) ++ vm :: rest,
         r, P ++ [vm]⟩) := by
  constructor
  · intro names
    exact waitVMsLoop_partition work names names [] [] "" [] (by simp) (by simp)
      (by simp) (by simp)
  · intro P vm rest r hvm hr hP
    have h := waitVMsLoop_stop_run work (P ++ vm :: rest) vm rest r hvm hr P [] [] "" []
      (by simpa using hP) (by simp) (by simp)
    rw [Capacity.wait_for_vms_running, h]
    simp

/-- Witness for C6 on five targets where the third stops the batch with
reason `scheduling`: targets 4 and 5 are recorded failed without being
invoked, the outputs partition the input. -/
theorem dispatcher_stop_skips_and_partitions_witness :
    Capacity.wait_for_vms_running
      (fun x => if x = "c" then .fail "scheduling" else if x = "b" then .fail "error" else .ok)
      ["a", "b", "c", "d", "e"] =
      ⟨["a"], ["b", "c", "d", "e"], "scheduling", ["a", "b", "c"]⟩ := by
  have h := (dispatcher_stop_skips_and_partitions
    (fun x => if x = "c" then .fail "scheduling" else if x = "b" then .fail "error" else .ok)).2
    ["a", "b"] "c" ["d", "e"] "scheduling" (by simp) (Or.inl rfl) (by decide)
  rw [show (["a", "b", "c", "d", "e"] : List String) = ["a", "b"] ++ "c" :: ["d", "e"] by rfl]
  rw [h]
  simp +decide [Capacity.isOk]

/-! ## C8: which durations enter the aggregate statistics -/

/-- C8 counterexample: a FAILED outcome with a present running time (the
code produces these, e.g. a ping timeout after the VM reached `Running`)
does contribute to `save_results`'s running-time statistics: the code's
value list keeps the 10 and counts 1, while the list the claim describes
(successful outcomes only) is empty with count 0. -/
theorem failed_durations_counted_counterexample :
    Common.save_results_running_times [⟨"a", some 10, none, some 5, false⟩] = [10] ∧
    (Common.calc_stats (Common.save_results_running_times
      [⟨"a", some 10, none, some 5, false⟩])).count = 1 ∧
    Common.spec_running_times [⟨"a", some 10, none, some 5, false⟩] = [] ∧
    (Common.calc_stats (Common.spec_running_times
      [⟨"a", some 10, none, some 5, false⟩])).count = 0 := by
  refine ⟨by decide, by decide, by decide, by decide⟩

/-- C8 amended: a metric absent (`None`) on an outcome is excluded from
that metric's statistics rather than treated as zero, in both aggregators;
`save_migration_results` moreover excludes every duration belonging to a
failed outcome (and any 0.0 duration, by Python truthiness); but
`save_results` filters only on presence, so present durations of failed
outcomes do contribute there. -/
theorem aggregator_exclusion_rules (results : List Common.MigRow)
    (rs : List Common.CloneRow) (ns ns₂ ns₃ : String) (obs : Option ℚ)
    (src tgt : Option String) (vm : Option ℚ) (pt ct : Option ℚ) (b : Bool) :
    Common.save_migration_observed_times (results ++ [⟨ns, false, obs, src, tgt, vm⟩]) =
      Common.save_migration_observed_times results ∧
    Common.save_migration_vmim_times (results ++ [⟨ns, false, obs, src, tgt, vm⟩]) =
      Common.save_migration_vmim_times results ∧
    Common.save_migration_vmim_times (results ++ [⟨ns₃, true, obs, src, tgt, none⟩]) =
      Common.save_migration_vmim_times results ∧
    Common.save_migration_observed_times (results ++ [⟨ns₃, true, none, src, tgt, vm⟩]) =
      Common.save_migration_observed_times results ∧
    Common.save_results_running_times (rs ++ [⟨ns₂, none, pt, ct, b⟩]) =
      Common.save_results_running_times rs ∧
    Common.save_results_ping_times (rs ++ [⟨ns₂, pt, none, ct, b⟩]) =
      Common.save_results_ping_times rs ∧
    Common.save_results_clone_times (rs ++ [⟨ns₂, pt, ct, none, b⟩]) =
      Common.save_results_clone_times rs := by
  refine ⟨?_, ?_, ?_, ?_, ?_, ?_, ?_⟩ <;>
    simp [Common.save_migration_observed_times, Common.save_migration_vmim_times,
      Common.save_results_running_times, Common.save_results_ping_times,
      Common.save_results_clone_times, List.filterMap_append]
  · cases obs <;> simp
  · cases vm <;> simp

/-! ## C1: process exit codes of the workload drivers -/

/-- C1 counterexample: a capacity run whose first iteration fails for a
non-capacity reason ends with `end_reason = "error"` yet `main` returns 0
(measure-capacity.py line 864 is an unconditional `return 0`), so the
process exit code is zero although a target failed for a reason other than
capacity exhaustion. -/
theorem capacity_error_exit_zero_counterexample :
    Capacity.capacity_main (fun _ => ⟨false, false, 0⟩) 5 10 =
      some ⟨"error", 0, 0⟩ := by
  decide

/-- C1 amended: the datasource-clone driver exits 0 exactly when every
monitored VM succeeded (nonzero otherwise), but the capacity driver's
`main` returns 0 for every run that terminates — whatever the
`end_reason`, including `error`. -/
theorem driver_exit_codes (results : List Common.CloneRow)
    (f : ℕ → Capacity.IterationOutcome) (max_iterations fuel : ℕ) :
    (Datasource.main_exit_code results = 0 ↔ ∀ r ∈ results, r.success = true) ∧
    Option.all (fun r => r.exit_code == 0)
      (Capacity.capacity_main f max_iterations fuel) = true := by
  constructor
  · constructor
    · intro h r hr
      by_cases hc : (results.filter (fun r => r.success = false)).length = 0
      · have hnil : results.filter (fun r => r.success = false) = [] :=
          List.length_eq_zero.mp hc
        have hall := List.filter_eq_nil_iff.mp hnil r hr
        simpa using hall
      · rw [Datasource.main_exit_code, if_neg hc] at h
        exact absurd h one_ne_zero
    · intro h
      have hnil : results.filter (fun r => r.success = false) = [] := by
        rw [List.filter_eq_nil_iff]
        intro r hr
        simp [h r hr]
      rw [Datasource.main_exit_code, if_pos (by rw [hnil]; rfl)]
  · rw [Capacity.capacity_main]
    cases Capacity.mainLoop f max_iterations fuel 1 0 <;> simp [Option.all]

/-- Witness for the amended C1: one failed row exits 1, an all-success pair
of rows exits 0, and a capacity run ending in error still carries exit code
0. -/
theorem driver_exit_codes_witness :
    Datasource.main_exit_code [⟨"a", some 1, some 2, some 3, false⟩] = 1 ∧
    Datasource.main_exit_code [⟨"a", some 1, some 2, some 3, true⟩] = 0 ∧
    Option.all (fun r => r.exit_code == 0)
      (Capacity.capacity_main (fun _ => ⟨false, false, 0⟩) 5 10) = true := by
  refine ⟨by decide, ?_, (driver_exit_codes [] (fun _ => ⟨false, false, 0⟩) 5 10).2⟩
  exact (driver_exit_codes [⟨"a", some 1, some 2, some 3, true⟩]
    (fun _ => ⟨false, false, 0⟩) 5 10).1.mpr (by decide)

/-! ## C10: the interleaved reorder is a permutation -/

/-- Summing an indicator over `List.range`. -/
theorem sum_map_indicator (n x c : ℕ) (hx : x < n) :
    ((List.range n).map (fun i => if x = i then c else 0)).sum = c := by
  induction n with
  | zero => omega
  | succ m ih =>
    rw [List.range_succ, List.map_append, List.sum_append]
    rcases Nat.lt_or_ge x m with h | h
    · rw [ih h]
      simp [Nat.ne_of_lt h]
    · have hxm : x = m := by omega
      subst hxm
      have hz : ((List.range x).map (fun i => if x = i then c else 0)).sum = 0 := by
        rw [List.sum_eq_zero]
        intro y hy
        simp only [List.mem_map] at hy
        obtain ⟨i, hi, hyi⟩ := hy
        have : x ≠ i := Nat.ne_of_gt (List.mem_range.mp hi)
        rw [if_neg this] at hyi
        omega
      simp [hz]

/-- The union of the residue classes modulo `g` of `List.range total`, in
the order Python's nested `range(offset, total, group_size)` loops emit
them, is a permutation of `List.range total`. -/
theorem interleaved_indices_perm (total g : ℕ) (hg : 0 < g) :
    ((List.range g).flatMap (fun off =>
      (List.range total).filter (fun i => i % g = off))).Perm (List.range total) := by
  rw [List.perm_iff_count]
  intro a
  rw [List.count_flatMap]
  have hcongr : ∀ off ∈ List.range g,
      (List.count a ∘ fun off => (List.range total).filter (fun i => i % g = off)) off =
        if a % g = off then List.count a (List.range total) else 0 := by
    intro off hoff
    simp only [Function.comp_apply]
    by_cases hoa : a % g = off
    · rw [if_pos hoa]
      exact List.count_filter (by simpa using hoa)
    · rw [if_neg hoa, List.count_eq_zero]
      intro hmem
      rw [List.mem_filter] at hmem
      exact hoa (by simpa using hmem.2)
  rw [List.map_congr_left hcongr, sum_map_indicator g (a % g) _ (Nat.mod_lt a hg)]

/-- Reading back a list through `getD` at every index. -/
theorem map_getD_range (l : List String) (d : String) :
    (List.range l.length).map (fun i => l.getD i d) = l := by
  induction l with
  | nil => rfl
  | cons a l ih =>
    rw [List.length_cons, List.range_succ_eq_map, List.map_cons, List.map_map]
    rw [show ((fun i => (a :: l).getD i d) ∘ Nat.succ) = fun i => l.getD i d by
      funext i; simp [List.getD_cons_succ]]
    rw [ih]
    rfl

/-- C10: for every namespace list and positive node count, the
interleaved-scheduling reorder emits every input namespace exactly once —
it is a permutation of the input, nothing duplicated and nothing
dropped. -/
theorem interleaved_reorder_perm (namespaces : List String) (num_nodes : ℕ)
    (hn : 0 < num_nodes) :
    (Migration.reorder_interleaved namespaces num_nodes).Perm namespaces := by
  have hg : 0 < (if namespaces.length / num_nodes = 0 then 1
      else namespaces.length / num_nodes) := by
    cases Nat.eq_zero_or_pos (namespaces.length / num_nodes) with
    | inl h => rw [if_pos h]; omega
    | inr h => rw [if_neg (Nat.pos_iff_ne_zero.mp h)]; exact h
  have key := (interleaved_indices_perm namespaces.length _ hg).map
    (fun i => namespaces.getD i "")
  rw [List.map_flatMap, map_getD_range] at key
  exact key

/-- Witness for C10 on five namespaces over two nodes (stride 2): the
reorder emits a permutation of the input. -/
theorem interleaved_reorder_perm_witness :
    (Migration.reorder_interleaved ["a", "b", "c", "d", "e"] 2).Perm
      ["a", "b", "c", "d", "e"] :=
  interleaved_reorder_perm ["a", "b", "c", "d", "e"] 2 (by omega)
